import Mathlib

/-!
Verification of the trace-comparison harness of the ti84ce repository.

The harness consists of two tools:
* `scripts/compare_sparse_traces.py` — aligns two sparse snapshot logs by
  cycle count and compares the aligned snapshots field by field;
* `scripts/find_first_divergence.py` — aligns two dense per-instruction
  traces positionally and locates the first divergence of each kind
  (PC, registers, I/O operations).

Both tools are embedded shallowly below: lines are lists of characters,
JSON step records are explicit structures, and each Python function is
translated into a Lean function of the same name.
-/

namespace TraceCompare

/-! ### Character classes and parsing primitives for the sparse log regexes -/

/-- Decimal digit class, `\d` of the cycle group. -/
def isDigitC (c : Char) : Bool := ('0' ≤ c && c ≤ '9')

/-- Upper-case hexadecimal class `[0-9A-F]` used by every register group. -/
def isHexC (c : Char) : Bool := isDigitC c || ('A' ≤ c && c ≤ 'F')

/-- Match a literal character sequence at the head of the input; on success
return the rest of the input. -/
def takeLit : List Char → List Char → Option (List Char)
  | [], s => some s
  | _ :: _, [] => none
  | p :: ps, c :: cs => if c = p then takeLit ps cs else none

/-- Greedily take characters satisfying `p`; return the taken span and the
rest. -/
def takeWhileC (p : Char → Bool) : List Char → List Char × List Char
  | [] => ([], [])
  | c :: cs =>
    if p c then
      let r := takeWhileC p cs
      (c :: r.1, r.2)
    else ([], c :: cs)

/-- `X+` of the regexes: one or more characters of class `p`, greedy. -/
def take1Plus (p : Char → Bool) (s : List Char) : Option (List Char × List Char) :=
  let r := takeWhileC p s
  if r.1 = [] then none else some r

/-- `re.search`: try the matcher at every start position, left to right. -/
def searchM {α : Type} (f : List Char → Option α) : List Char → Option α
  | [] => f []
  | c :: cs =>
    match f (c :: cs) with
    | some r => some r
    | none => searchM f cs

/-- The seven capture groups of the mandatory snapshot regex. -/
structure SnapGroups where
  cyc : List Char
  pcs : List Char
  sps : List Char
  afs : List Char
  bcs : List Char
  des : List Char
  hls : List Char
  deriving DecidableEq, Repr

/-- One attempt of the mandatory regex
`\[snapshot\] cycle=(\d+) PC=([0-9A-F]+) SP=(...) AF=(...) BC=(...) DE=(...) HL=(...)`
at a fixed start position.  Every `+` group is followed by a character
outside its class, so greedy matching needs no backtracking. -/
def matchSnapshotAt (s : List Char) : Option SnapGroups := do
  let s ← takeLit (("[snapshot] cycle=").toList) s
  let (cyc, s) ← take1Plus isDigitC s
  let s ← takeLit ((" PC=").toList) s
  let (pcs, s) ← take1Plus isHexC s
  let s ← takeLit ((" SP=").toList) s
  let (sps, s) ← take1Plus isHexC s
  let s ← takeLit ((" AF=").toList) s
  let (afs, s) ← take1Plus isHexC s
  let s ← takeLit ((" BC=").toList) s
  let (bcs, s) ← take1Plus isHexC s
  let s ← takeLit ((" DE=").toList) s
  let (des, s) ← take1Plus isHexC s
  let s ← takeLit ((" HL=").toList) s
  let (hls, _) ← take1Plus isHexC s
  return ⟨cyc, pcs, sps, afs, bcs, des, hls⟩

/-- One attempt of `INTR\[stat=([0-9A-F]+) en=([0-9A-F]+)`. -/
def matchIntrAt (s : List Char) : Option (List Char × List Char) := do
  let s ← takeLit (("INTR[stat=").toList) s
  let (st, s) ← take1Plus isHexC s
  let s ← takeLit ((" en=").toList) s
  let (en, _) ← take1Plus isHexC s
  return (st, en)

/-- One attempt of `CTRL\[pwr=([0-9A-F]+) spd=([0-9A-F]+)`. -/
def matchCtrlAt (s : List Char) : Option (List Char × List Char) := do
  let s ← takeLit (("CTRL[pwr=").toList) s
  let (pw, s) ← take1Plus isHexC s
  let s ← takeLit ((" spd=").toList) s
  let (sp, _) ← take1Plus isHexC s
  return (pw, sp)

/-- One attempt of `LIT(\d+|true|false)` for `HALT=` and `IFF1=`; the
alternation is tried left to right as the regex engine does. -/
def matchFlagAt (lit : List Char) (s : List Char) : Option (List Char) := do
  let s ← takeLit lit s
  match take1Plus isDigitC s with
  | some (d, _) => return d
  | none =>
    match takeLit (("true").toList) s with
    | some _ => return (("true").toList)
    | none =>
      match takeLit (("false").toList) s with
      | some _ => return (("false").toList)
      | none => none

/-- The literal before the HALT flag group. -/
def haltPat : List Char := ("HALT=").toList

/-- The literal before the IFF1 flag group. -/
def iffPat : List Char := ("IFF1=").toList

/-- Numeric value of a decimal digit. -/
def digitVal (c : Char) : Nat := c.toNat - ('0').toNat

/-- Numeric value of an upper-case hexadecimal digit. -/
def hexVal (c : Char) : Nat :=
  if isDigitC c then c.toNat - ('0').toNat else c.toNat - ('A').toNat + 10

/-- `int(s)` on a captured decimal group. -/
def natOfDec (l : List Char) : Nat := l.foldl (fun a c => 10 * a + digitVal c) 0

/-- `int(s, 16)` on a captured hexadecimal group. -/
def natOfHex (l : List Char) : Nat := l.foldl (fun a c => 16 * a + hexVal c) 0

/-- Whitespace class of `str.strip`. -/
def isSpaceC (c : Char) : Bool :=
  (c = ' ' || c = (Char.ofNat 9) || c = (Char.ofNat 10) || c = (Char.ofNat 13))

/-- `line.strip()`. -/
def stripC (l : List Char) : List Char :=
  ((l.dropWhile isSpaceC).reverse.dropWhile isSpaceC).reverse

/-! ### Sparse record model and loader (`compare_sparse_traces.py`) -/

/-- The sparse-trace record: one parsed `[snapshot]` line. -/
structure Snapshot where
  cycle : Nat
  pc : Nat
  sp : Nat
  af : Nat
  bc : Nat
  de : Nat
  hl : Nat
  intr_stat : Nat
  intr_en : Nat
  halt : Bool
  iff1 : Bool
  pwr : Nat
  spd : Nat
  line : List Char
  deriving DecidableEq, Repr

/-- `parse_snapshot(line)`: `None` when the mandatory regex does not match
anywhere in the line; otherwise a `Snapshot` whose optional fields come from
the secondary regexes, with zero/false defaults when those do not match. -/
def parse_snapshot (line : List Char) : Option Snapshot :=
  match searchM matchSnapshotAt line with
  | none => none
  | some g =>
    let intr := searchM matchIntrAt line
    let ctrl := searchM matchCtrlAt line
    let halt_val := (searchM (matchFlagAt haltPat) line).getD (("0").toList)
    let iff_val := (searchM (matchFlagAt iffPat) line).getD (("0").toList)
    some
      { cycle := natOfDec g.cyc
        pc := natOfHex g.pcs
        sp := natOfHex g.sps
        af := natOfHex g.afs
        bc := natOfHex g.bcs
        de := natOfHex g.des
        hl := natOfHex g.hls
        intr_stat := match intr with | some p => natOfHex p.1 | none => 0
        intr_en := match intr with | some p => natOfHex p.2 | none => 0
        halt := (halt_val == ("1").toList || halt_val == ("true").toList)
        iff1 := (iff_val == ("1").toList || iff_val == ("true").toList)
        pwr := match ctrl with | some p => natOfHex p.1 | none => 0
        spd := match ctrl with | some p => natOfHex p.2 | none => 0
        line := stripC line }

/-- The marker token that selects candidate lines. -/
def markerChars : List Char := ("[snapshot]").toList

/-- `line.startswith(pat)` on character lists (pattern first). -/
def listStartsWith : List Char → List Char → Bool
  | [], _ => true
  | _ :: _, [] => false
  | p :: ps, c :: cs => (c == p) && listStartsWith ps cs

/-- `load_snapshots`: keep only marker lines whose parse succeeds. -/
def load_snapshots : List (List Char) → List Snapshot
  | [] => []
  | l :: rest =>
    if listStartsWith markerChars l then
      match parse_snapshot l with
      | some s => s :: load_snapshots rest
      | none => load_snapshots rest
    else load_snapshots rest

/-- One entry of the difference list returned by `compare_snapshots`:
the field name together with both values (the embedding keeps the data of
the formatted diff string, not its rendering). -/
inductive SnapDiff where
  | dPC (cemu ours : Nat)
  | dSP (cemu ours : Nat)
  | dAF (cemu ours : Nat)
  | dBC (cemu ours : Nat)
  | dDE (cemu ours : Nat)
  | dHL (cemu ours : Nat)
  | dHALT (cemu ours : Bool)
  | dIFF1 (cemu ours : Bool)
  deriving DecidableEq, Repr

/-- `compare_snapshots(cemu, ours)`: the ordered difference list over the
compared fields PC, SP, AF, BC, DE, HL, HALT, IFF1. -/
def compare_snapshots (cemu ours : Snapshot) : List SnapDiff :=
  (if cemu.pc ≠ ours.pc then [SnapDiff.dPC cemu.pc ours.pc] else []) ++
  (if cemu.sp ≠ ours.sp then [SnapDiff.dSP cemu.sp ours.sp] else []) ++
  (if cemu.af ≠ ours.af then [SnapDiff.dAF cemu.af ours.af] else []) ++
  (if cemu.bc ≠ ours.bc then [SnapDiff.dBC cemu.bc ours.bc] else []) ++
  (if cemu.de ≠ ours.de then [SnapDiff.dDE cemu.de ours.de] else []) ++
  (if cemu.hl ≠ ours.hl then [SnapDiff.dHL cemu.hl ours.hl] else []) ++
  (if cemu.halt ≠ ours.halt then [SnapDiff.dHALT cemu.halt ours.halt] else []) ++
  (if cemu.iff1 ≠ ours.iff1 then [SnapDiff.dIFF1 cemu.iff1 ours.iff1] else [])

/-! ### Alignment index and sparse main loop -/

/-- The cycle values of a loaded trace, in file order. -/
def cycleList (snaps : List Snapshot) : List Nat := snaps.map (fun s => s.cycle)

/-- Set-of-keys model: drop duplicates. -/
def dedupN : List Nat → List Nat
  | [] => []
  | x :: xs => if (dedupN xs).contains x then dedupN xs else x :: dedupN xs

/-- Membership intersection of two key lists (`set & set`). -/
def interN (xs ys : List Nat) : List Nat := xs.filter (fun x => ys.contains x)

/-- Insertion into a sorted list. -/
def insertSorted (x : Nat) : List Nat → List Nat
  | [] => [x]
  | y :: ys => if x ≤ y then x :: y :: ys else y :: insertSorted x ys

/-- `sorted(...)` ascending, as insertion sort. -/
def sortNat (l : List Nat) : List Nat := l.foldr insertSorted []

/-- `sorted(set(cemu_by_cycle) & set(ours_by_cycle))`: the aligned
comparison set. -/
def common_cycles (cemu ours : List Snapshot) : List Nat :=
  sortNat (dedupN (interN (cycleList cemu) (cycleList ours)))

/-- The cycle-keyed dictionary `{s['cycle']: s for s in snaps}`: a later
snapshot with an equal cycle overwrites an earlier one, so lookup returns
the last matching snapshot. -/
def byCycle (snaps : List Snapshot) (c : Nat) : Option Snapshot :=
  snaps.reverse.find? (fun s => s.cycle == c)

/-- The per-cycle difference list computed inside the main loop. -/
def diffsAt (cemu ours : List Snapshot) (c : Nat) : List SnapDiff :=
  match byCycle cemu c, byCycle ours c with
  | some x, some y => compare_snapshots x y
  | _, _ => []

/-- Number of aligned cycles whose difference list is empty. -/
def matchCount (cemu ours : List Snapshot) : Nat :=
  ((common_cycles cemu ours).filter (fun c => (diffsAt cemu ours c).isEmpty)).length

/-- The aligned cycles at which a divergence is recorded. -/
def divergenceCycles (cemu ours : List Snapshot) : List Nat :=
  (common_cycles cemu ours).filter (fun c => !(diffsAt cemu ours c).isEmpty)

/-- `main` returns 1 when the divergence list is non-empty and 0 otherwise;
`sys.exit(main())` makes this the process exit status. -/
def sparse_exit (cemu ours : List Snapshot) : Nat :=
  if (divergenceCycles cemu ours).isEmpty then 0 else 1

/-! ### Dense record model (`find_first_divergence.py`) -/

/-- One I/O operation of a dense step, per the trace format: a write carries
`target`, `addr`, `old`, `new`; any other operation carries `target`, `addr`,
`value`. -/
inductive IOOp where
  | read (target addr value : String)
  | write (target addr old new : String)
  deriving DecidableEq, Repr

/-- `op.get("type")`. -/
def opType : IOOp → String
  | .read _ _ _ => "read"
  | .write _ _ _ _ => "write"

/-- `op.get("target")`. -/
def opTarget : IOOp → String
  | .read t _ _ => t
  | .write t _ _ _ => t

/-- `op.get("addr")`. -/
def opAddr : IOOp → String
  | .read _ a _ => a
  | .write _ a _ _ => a

/-- The difference description returned by `compare_io_ops` (field kind,
operation index, both values — the data of the formatted string). -/
inductive IODiff where
  | countMismatch (ours cemu : Nat)
  | typeD (i : Nat) (ours cemu : String)
  | targetD (i : Nat) (ours cemu : String)
  | addrD (i : Nat) (ours cemu : String)
  | oldD (i : Nat) (ours cemu : String)
  | newD (i : Nat) (ours cemu : String)
  | valueD (i : Nat) (ours cemu : String)
  deriving DecidableEq, Repr

/-- The per-position loop of `compare_io_ops` over `zip(ours, cemu)`,
carrying the running index `i`; `none` means every compared field matched. -/
def compareOpsAux (ignore_old : Bool) : Nat → List IOOp → List IOOp → Option IODiff
  | _, [], _ => none
  | _, _ :: _, [] => none
  | i, a :: as, b :: bs =>
    if opType a ≠ opType b then some (.typeD i (opType a) (opType b))
    else if opTarget a ≠ opTarget b then some (.targetD i (opTarget a) (opTarget b))
    else if opAddr a ≠ opAddr b then some (.addrD i (opAddr a) (opAddr b))
    else
      match a, b with
      | .write _ _ aold anew, .write _ _ bold bnew =>
        if !ignore_old && aold ≠ bold then some (.oldD i aold bold)
        else if anew ≠ bnew then some (.newD i anew bnew)
        else compareOpsAux ignore_old (i + 1) as bs
      | .read _ _ av, .read _ _ bv =>
        if av ≠ bv then some (.valueD i av bv)
        else compareOpsAux ignore_old (i + 1) as bs
      | .read _ _ _, .write _ _ _ _ => some (.typeD i (opType a) (opType b))
      | .write _ _ _ _, .read _ _ _ => some (.typeD i (opType a) (opType b))

/-- `compare_io_ops(ours_ops, cemu_ops, writes_only, ignore_old)`:
`none` stands for `(True, None)`, `some d` for `(False, d)`. -/
def compare_io_ops (ours_ops cemu_ops : List IOOp) (writes_only ignore_old : Bool) :
    Option IODiff :=
  let ours' := if writes_only then ours_ops.filter (fun op => opType op == "write") else ours_ops
  let cemu' := if writes_only then cemu_ops.filter (fun op => opType op == "write") else cemu_ops
  if ours'.length ≠ cemu'.length then some (.countMismatch ours'.length cemu'.length)
  else compareOpsAux ignore_old 0 ours' cemu'

/-- The dense-trace record: one JSON step object (only the fields the
comparison reads; `opcode` is used by the reporter alone). -/
structure Step where
  pc : Option String
  regs_before : List (String × String)
  io_ops : List IOOp
  deriving DecidableEq, Repr

/-- `regs.get(name, "?")` on the register mapping. -/
def regGet (regs : List (String × String)) (k : String) : String :=
  match regs.find? (fun p => p.1 == k) with
  | some p => p.2
  | none => "?"

/-- The register names checked, in the order of the source list literal. -/
def regOrder : List String := ["A", "F", "BC", "DE", "HL", "IX", "IY", "SP"]

/-- The inner register loop: first differing register among `names`, with
both values; `none` when all listed registers agree. -/
def findRegDiff (ours cemu : List (String × String)) :
    List String → Option (String × String × String)
  | [] => none
  | r :: rest =>
    let ov := regGet ours r
    let cv := regGet cemu r
    if ov ≠ cv then some (r, ov, cv) else findRegDiff ours cemu rest

/-- Out-of-range access never happens in the scan; the default mirrors a
step with every field absent. -/
def stepGet (tr : List Step) (i : Nat) : Step := tr.getD i ⟨none, [], []⟩

/-- `step.get("pc", "?")`. -/
def pcAt (tr : List Step) (i : Nat) : String := (stepGet tr i).pc.getD "?"

/-- The result of the scanning loop of `compare_traces`:
`first_pc_diff`, `first_reg_diff`, `first_io_diff`. -/
structure ScanResult where
  pcDiff : Option Nat
  regDiff : Option (Nat × String × String × String)
  ioDiff : Option (Nat × IODiff)
  deriving DecidableEq, Repr

/-- `min_len`: `min(len(ours), len(cemu), max_steps)` when `max_steps` is
truthy (present and non-zero), else `min(len(ours), len(cemu))`. -/
def minLen (ours cemu : List Step) (max_steps : Option Nat) : Nat :=
  match max_steps with
  | some m => if m ≠ 0 then min (min ours.length cemu.length) m else min ours.length cemu.length
  | none => min ours.length cemu.length

/-- The `for i in range(min_len)` loop of `compare_traces`: update the three
firsts at step `i` and break as soon as any of them is set. -/
def scanAux (ours cemu : List Step) (ioCheck writes_only ignore_old : Bool) :
    Nat → Nat → Option Nat → Option (Nat × String × String × String) →
    Option (Nat × IODiff) → ScanResult
  | 0, _, pcD, regD, ioD => ⟨pcD, regD, ioD⟩
  | rem + 1, i, pcD, regD, ioD =>
    let ourStep := stepGet ours i
    let cemuStep := stepGet cemu i
    let pcD' := if pcD = none ∧ pcAt ours i ≠ pcAt cemu i then some i else pcD
    let regD' :=
      if regD = none then
        match findRegDiff ourStep.regs_before cemuStep.regs_before regOrder with
        | some (r, ov, cv) => some (i, r, ov, cv)
        | none => none
      else regD
    let ioD' :=
      if ioCheck ∧ ioD = none then
        match compare_io_ops ourStep.io_ops cemuStep.io_ops writes_only ignore_old with
        | some d => some (i, d)
        | none => none
      else ioD
    if pcD' ≠ none ∨ regD' ≠ none ∨ ioD' ≠ none then ⟨pcD', regD', ioD'⟩
    else scanAux ours cemu ioCheck writes_only ignore_old rem (i + 1) pcD' regD' ioD'

/-- The scanning phase of `compare_traces` (loading aside): the three
`first_*` variables at the end of the loop. -/
def compare_traces_scan (ours cemu : List Step) (max_steps : Option Nat)
    (ioCheck writes_only ignore_old : Bool) : ScanResult :=
  scanAux ours cemu ioCheck writes_only ignore_old (minLen ours cemu max_steps) 0
    none none none

/-- The reporting phase of `compare_traces`: `divergence_step` is folded
from the three firsts in source order (registers, I/O, PC), each guarded by
Python truthiness — so a `first_pc_diff` equal to `0` is treated as absent. -/
def divergence_step (r : ScanResult) : Option Nat :=
  let d0 : Option Nat := none
  let d1 :=
    match r.regDiff with
    | some q => match d0 with | none => some q.1 | some x => some (min x q.1)
    | none => d0
  let d2 :=
    match r.ioDiff with
    | some q => match d1 with | none => some q.1 | some x => some (min x q.1)
    | none => d1
  match r.pcDiff with
  | some s =>
    if s ≠ 0 then match d2 with | none => some s | some x => some (min x s)
    else d2
  | none => d2

/-- The dense tool's process outcome: `compare_traces` returns `None` on
every path and `__main__` never exits with its result, so the process exit
status is 0 regardless of the divergences found. -/
def dense_exit (ours cemu : List Step) (max_steps : Option Nat)
    (ioCheck writes_only ignore_old : Bool) : Nat :=
  let _ := divergence_step (compare_traces_scan ours cemu max_steps ioCheck
    writes_only ignore_old)
  0

/-! ### Helper lemmas about the sorted-intersection alignment -/

lemma mem_insertSorted (x y : Nat) (l : List Nat) :
    y ∈ insertSorted x l ↔ y = x ∨ y ∈ l := by
  induction l with
  | nil => simp [insertSorted]
  | cons z zs ih =>
    by_cases h : x ≤ z
    · simp [insertSorted, h]
    · simp [insertSorted, h, ih]
      tauto

lemma perm_insertSorted (x : Nat) (l : List Nat) :
    List.Perm (insertSorted x l) (x :: l) := by
  induction l with
  | nil => simp [insertSorted]
  | cons z zs ih =>
    by_cases h : x ≤ z
    · simp [insertSorted, h]
    · have h1 : insertSorted x (z :: zs) = z :: insertSorted x zs := by
        simp [insertSorted, h]
      rw [h1]
      exact (ih.cons z).trans (List.Perm.swap x z zs)

lemma sorted_insertSorted (x : Nat) (l : List Nat)
    (h : l.Sorted (· ≤ ·)) : (insertSorted x l).Sorted (· ≤ ·) := by
  induction l with
  | nil => simp [insertSorted]
  | cons z zs ih =>
    rcases List.sorted_cons.mp h with ⟨hz, hzs⟩
    by_cases hx : x ≤ z
    · rw [insertSorted, if_pos hx]
      refine List.sorted_cons.mpr ⟨?_, h⟩
      intro b hb
      rcases List.mem_cons.mp hb with hb | hb
      · simpa [hb] using hx
      · exact le_trans hx (hz b hb)
    · rw [insertSorted, if_neg hx]
      refine List.sorted_cons.mpr ⟨?_, ih hzs⟩
      intro b hb
      rcases (mem_insertSorted x b zs).mp hb with hb | hb
      · simpa [hb] using le_of_not_le hx
      · exact hz b hb

lemma perm_sortNat (l : List Nat) : List.Perm (sortNat l) l := by
  induction l with
  | nil => simp [sortNat]
  | cons x xs ih =>
    exact (perm_insertSorted x (sortNat xs)).trans (ih.cons x)

lemma sorted_sortNat (l : List Nat) : (sortNat l).Sorted (· ≤ ·) := by
  induction l with
  | nil => simp [sortNat]
  | cons x xs ih => exact sorted_insertSorted x (sortNat xs) ih

lemma mem_sortNat (y : Nat) (l : List Nat) : y ∈ sortNat l ↔ y ∈ l :=
  (perm_sortNat l).mem_iff

lemma nodup_sortNat (l : List Nat) (h : l.Nodup) : (sortNat l).Nodup :=
  (perm_sortNat l).nodup_iff.mpr h

lemma mem_dedupN (y : Nat) (l : List Nat) : y ∈ dedupN l ↔ y ∈ l := by
  induction l with
  | nil => simp [dedupN]
  | cons x xs ih =>
    by_cases h : (dedupN xs).contains x
    · rw [dedupN, if_pos h]
      have hx : x ∈ dedupN xs := by
        simpa using h
      constructor
      · intro hy; exact List.mem_cons.mpr (Or.inr (ih.mp hy))
      · intro hy
        rcases List.mem_cons.mp hy with hy | hy
        · exact hy ▸ hx
        · exact ih.mpr hy
    · rw [dedupN, if_neg h]
      simp [ih]

lemma nodup_dedupN (l : List Nat) : (dedupN l).Nodup := by
  induction l with
  | nil => simp [dedupN]
  | cons x xs ih =>
    by_cases h : (dedupN xs).contains x
    · rw [dedupN, if_pos h]; exact ih
    · rw [dedupN, if_neg h]
      refine List.nodup_cons.mpr ⟨?_, ih⟩
      simpa using h

lemma mem_interN (y : Nat) (xs ys : List Nat) :
    y ∈ interN xs ys ↔ y ∈ xs ∧ y ∈ ys := by
  simp [interN]

lemma sorted_nodup_ext :
    ∀ (l₁ l₂ : List Nat), l₁.Sorted (· ≤ ·) → l₂.Sorted (· ≤ ·) →
      l₁.Nodup → l₂.Nodup → (∀ x, x ∈ l₁ ↔ x ∈ l₂) → l₁ = l₂ := by
  intro l₁
  induction l₁ with
  | nil =>
    intro l₂ _ _ _ _ hmem
    cases l₂ with
    | nil => rfl
    | cons y ys => exact absurd ((hmem y).mpr (List.mem_cons_self y ys)) (by simp)
  | cons x xs ih =>
    intro l₂ hs₁ hs₂ hn₁ hn₂ hmem
    cases l₂ with
    | nil => exact absurd ((hmem x).mp (List.mem_cons_self x xs)) (by simp)
    | cons y ys =>
      rcases List.sorted_cons.mp hs₁ with ⟨hx, hxs⟩
      rcases List.sorted_cons.mp hs₂ with ⟨hy, hys⟩
      rcases List.nodup_cons.mp hn₁ with ⟨hnx, hnxs⟩
      rcases List.nodup_cons.mp hn₂ with ⟨hny, hnys⟩
      have hxy : x = y := by
        rcases List.mem_cons.mp ((hmem x).mp (List.mem_cons_self x xs)) with h | h
        · exact h
        · rcases List.mem_cons.mp ((hmem y).mpr (List.mem_cons_self y ys)) with h2 | h2
          · exact h2.symm
          · exact le_antisymm (hx y h2) (hy x h)
      subst hxy
      have htail : ∀ z, z ∈ xs ↔ z ∈ ys := by
        intro z
        constructor
        · intro hz
          rcases List.mem_cons.mp ((hmem z).mp (List.mem_cons.mpr (Or.inr hz))) with h | h
          · exact absurd (h ▸ hz) hnx
          · exact h
        · intro hz
          rcases List.mem_cons.mp ((hmem z).mpr (List.mem_cons.mpr (Or.inr hz))) with h | h
          · exact absurd (h ▸ hz) hny
          · exact h
      rw [ih ys hxs hys hnxs hnys htail]

lemma mem_common_cycles (cemu ours : List Snapshot) (c : Nat) :
    c ∈ common_cycles cemu ours ↔ c ∈ cycleList cemu ∧ c ∈ cycleList ours := by
  rw [common_cycles, mem_sortNat, mem_dedupN, mem_interN]

lemma sorted_common_cycles (cemu ours : List Snapshot) :
    (common_cycles cemu ours).Sorted (· ≤ ·) :=
  sorted_sortNat _

lemma nodup_common_cycles (cemu ours : List Snapshot) :
    (common_cycles cemu ours).Nodup :=
  nodup_sortNat _ (nodup_dedupN _)

lemma common_cycles_comm (a b : List Snapshot) :
    common_cycles a b = common_cycles b a := by
  refine sorted_nodup_ext _ _ (sorted_common_cycles a b) (sorted_common_cycles b a)
    (nodup_common_cycles a b) (nodup_common_cycles b a) ?_
  intro x
  rw [mem_common_cycles, mem_common_cycles]
  tauto

/-! ### Field-comparator characterization (sparse mode) -/

lemma compare_snapshots_eq_nil_iff (x y : Snapshot) :
    compare_snapshots x y = [] ↔
      (x.pc = y.pc ∧ x.sp = y.sp ∧ x.af = y.af ∧ x.bc = y.bc ∧
       x.de = y.de ∧ x.hl = y.hl ∧ x.halt = y.halt ∧ x.iff1 = y.iff1) := by
  simp only [compare_snapshots, List.append_eq_nil, ite_eq_right_iff,
    List.cons_ne_nil, imp_false, not_not]
  tauto

lemma compare_snapshots_nil_comm (x y : Snapshot) :
    compare_snapshots x y = [] ↔ compare_snapshots y x = [] := by
  rw [compare_snapshots_eq_nil_iff, compare_snapshots_eq_nil_iff]
  constructor <;> (intro h; exact ⟨h.1.symm, h.2.1.symm, h.2.2.1.symm, h.2.2.2.1.symm,
    h.2.2.2.2.1.symm, h.2.2.2.2.2.1.symm, h.2.2.2.2.2.2.1.symm, h.2.2.2.2.2.2.2.symm⟩)

lemma diffsAt_nil_comm (a b : List Snapshot) (c : Nat) :
    diffsAt a b c = [] ↔ diffsAt b a c = [] := by
  unfold diffsAt
  cases ha : byCycle a c <;> cases hb : byCycle b c <;> simp
  exact compare_snapshots_nil_comm _ _

/-- A snapshot with the given cycle and zeroed state, for concrete examples. -/
def mkSnap (c : Nat) : Snapshot :=
  ⟨c, 0, 0, 0, 0, 0, 0, 0, 0, false, false, 0, 0, []⟩

/-- A snapshot with the given cycle and PC, for concrete examples. -/
def mkSnapPC (c pcv : Nat) : Snapshot :=
  ⟨c, pcv, 0, 0, 0, 0, 0, 0, 0, false, false, 0, 0, []⟩

/-- Claim C3: for every pair of sparse traces, the aligned comparison set
is the intersection of the two cycle-key sets sorted ascending, and on the
traces with cycle sets `{0, 100000, 200000, 300000}` and
`{100000, 200000, 400000}` it is exactly `[100000, 200000]`. -/
theorem C3_aligned_intersection :
    (∀ (a b : List Snapshot) (c : Nat),
        c ∈ common_cycles a b ↔ c ∈ cycleList a ∧ c ∈ cycleList b) ∧
    (∀ a b : List Snapshot, (common_cycles a b).Sorted (· ≤ ·)) ∧
    (∀ a b : List Snapshot, (common_cycles a b).Nodup) ∧
    common_cycles ([mkSnap 0, mkSnap 100000, mkSnap 200000, mkSnap 300000])
      ([mkSnap 100000, mkSnap 200000, mkSnap 400000]) = [100000, 200000] := by
  refine ⟨mem_common_cycles, sorted_common_cycles, nodup_common_cycles, ?_⟩
  decide

/-- Claim C4: the sparse field comparator reports a non-empty difference
list exactly when the two snapshots differ in PC, SP, AF, BC, DE, HL
(integers) or HALT, IFF1 (booleans); snapshots differing only in the
interrupt/control bytes or the raw line text compare as equal. -/
theorem C4_sparse_field_comparator :
    (∀ x y : Snapshot,
        compare_snapshots x y ≠ [] ↔
          (x.pc ≠ y.pc ∨ x.sp ≠ y.sp ∨ x.af ≠ y.af ∨ x.bc ≠ y.bc ∨
           x.de ≠ y.de ∨ x.hl ≠ y.hl ∨ x.halt ≠ y.halt ∨ x.iff1 ≠ y.iff1)) ∧
    compare_snapshots ⟨77, 1, 2, 3, 4, 5, 6, 9, 9, true, true, 9, 9, (("a").toList)⟩
      ⟨77, 1, 2, 3, 4, 5, 6, 0, 0, true, true, 0, 0, (("b").toList)⟩ = [] := by
  constructor
  · intro x y
    rw [not_iff_comm, compare_snapshots_eq_nil_iff]
    push_neg
    tauto
  · decide

/-- Claim C8: sparse comparison is commutative in the input order — the
aligned cycle keys, the match count and the divergence count are unchanged
when the two traces are swapped, and at every cycle the difference list is
non-empty under one order iff it is under the other. -/
theorem C8_sparse_commutative (a b : List Snapshot) :
    common_cycles a b = common_cycles b a ∧
    matchCount a b = matchCount b a ∧
    (divergenceCycles a b).length = (divergenceCycles b a).length ∧
    (∀ c : Nat, diffsAt a b c ≠ [] ↔ diffsAt b a c ≠ []) := by
  have hpt : ∀ c : Nat, (diffsAt a b c).isEmpty = (diffsAt b a c).isEmpty := by
    intro c
    rcases h1 : (diffsAt a b c).isEmpty with _ | _ <;>
      rcases h2 : (diffsAt b a c).isEmpty with _ | _ <;>
      simp_all [List.isEmpty_iff, diffsAt_nil_comm a b c]
  refine ⟨common_cycles_comm a b, ?_, ?_, ?_⟩
  · unfold matchCount
    rw [common_cycles_comm a b]
    rw [List.filter_congr (fun c _ => hpt c)]
  · unfold divergenceCycles
    rw [common_cycles_comm a b]
    rw [List.filter_congr (fun c _ => by rw [hpt c])]
  · intro c
    rw [not_iff_not]
    exact diffsAt_nil_comm a b c

/-- Claim C10: the cycle-keyed alignment index keeps the last snapshot for
a repeated cycle value (a later equal-cycle snapshot overwrites an earlier
one), the comparison at that cycle uses the last occurrence, and repeated
or non-monotonic cycle values are processed rather than rejected. -/
theorem C10_duplicate_cycles_last_wins :
    (∀ (xs : List Snapshot) (s : Snapshot), byCycle (xs ++ [s]) s.cycle = some s) ∧
    byCycle ([mkSnapPC 200 1, mkSnapPC 100 1, mkSnapPC 100 2]) 100 = some (mkSnapPC 100 2) ∧
    diffsAt ([mkSnapPC 200 1, mkSnapPC 100 1, mkSnapPC 100 2])
      ([mkSnapPC 100 2, mkSnapPC 200 1]) 100 = [] ∧
    diffsAt ([mkSnapPC 200 1, mkSnapPC 100 2, mkSnapPC 100 1])
      ([mkSnapPC 100 2, mkSnapPC 200 1]) 100 ≠ [] ∧
    common_cycles ([mkSnapPC 200 1, mkSnapPC 100 1, mkSnapPC 100 2])
      ([mkSnapPC 100 2, mkSnapPC 200 1]) = [100, 200] := by
  refine ⟨?_, by decide, by decide, by decide, by decide⟩
  intro xs s
  unfold byCycle
  rw [List.reverse_append]
  simp [List.find?]

/-! ### Exit behavior (claim C2) -/

lemma divergenceCycles_nil_iff (a b : List Snapshot) :
    divergenceCycles a b = [] ↔ matchCount a b = (common_cycles a b).length := by
  unfold divergenceCycles matchCount
  constructor
  · intro h
    have hall : ∀ c ∈ common_cycles a b, (diffsAt a b c).isEmpty = true := by
      intro c hc
      by_contra hno
      have hmem : c ∈ (common_cycles a b).filter (fun c => !(diffsAt a b c).isEmpty) :=
        List.mem_filter.mpr ⟨hc, by simpa using hno⟩
      rw [h] at hmem
      exact absurd hmem (List.not_mem_nil c)
    rw [List.filter_eq_self.mpr hall]
  · intro h
    have hs : (common_cycles a b).filter (fun c => (diffsAt a b c).isEmpty) =
        common_cycles a b :=
      ((common_cycles a b).filter_sublist).eq_of_length h
    have hall := List.filter_eq_self.mp hs
    rw [List.filter_eq_nil_iff]
    intro c hc
    simp [hall c hc]

/-- Concrete dense traces that diverge (in PC, at step 1). -/
def cexOurs : List Step := [⟨some "00", [], []⟩, ⟨some "AA", [], []⟩]

/-- The counterpart trace of `cexOurs` with a different PC at step 1. -/
def cexCemu : List Step := [⟨some "00", [], []⟩, ⟨some "BB", [], []⟩]

/-- Claim C2 counterexample: the dense tool finds a divergence at step 1 of
`cexOurs` versus `cexCemu`, yet its process outcome is 0 — the same outcome
it produces on a fully matching pair — so the dense tool does not signal
failure via a distinct process outcome. -/
theorem C2_counterexample :
    divergence_step (compare_traces_scan cexOurs cexCemu none true false false) = some 1 ∧
    dense_exit cexOurs cexCemu none true false false = 0 ∧
    dense_exit cexOurs cexOurs none true false false = 0 := by
  decide

/-- Claim C2 (amended): only the sparse tool signals success versus failure
through its process outcome — it exits 0 exactly when every compared point
matches and 1 exactly when at least one divergence is found; the dense tool
always exits 0. -/
theorem C2_amended_exit_behavior :
    (∀ a b : List Snapshot,
        (sparse_exit a b = 0 ↔ matchCount a b = (common_cycles a b).length) ∧
        (sparse_exit a b = 1 ↔ divergenceCycles a b ≠ [])) ∧
    (∀ (ours cemu : List Step) (ms : Option Nat) (ci wo io : Bool),
        dense_exit ours cemu ms ci wo io = 0) := by
  constructor
  · intro a b
    have hiff := divergenceCycles_nil_iff a b
    unfold sparse_exit
    cases h : (divergenceCycles a b).isEmpty with
    | true =>
      have hnil : divergenceCycles a b = [] := by simpa [List.isEmpty_iff] using h
      simp [h, hnil, hiff.mp hnil]
    | false =>
      have hnil : divergenceCycles a b ≠ [] := by
        intro hc
        rw [hc] at h
        simp at h
      simp [h, hnil]
      exact fun hc => hnil (hiff.mpr hc)
  · intro ours cemu ms ci wo io
    rfl

/-! ### Loader tolerance (claim C9) -/

/-- Claim C9: the sparse loader considers only `[snapshot]`-marked lines; a
considered line on which the mandatory regex (cycle, PC, SP, AF, BC, DE, HL)
does not match is silently dropped rather than aborting the load; and in
every loaded snapshot the optional fields default to zero (intr_stat,
intr_en, pwr, spd) or false (halt, iff1) when their patterns are absent. -/
theorem C9_loader_tolerance :
    (∀ (l : List Char) (rest : List (List Char)),
        listStartsWith markerChars l = false →
          load_snapshots (l :: rest) = load_snapshots rest) ∧
    (∀ (l : List Char) (rest : List (List Char)),
        parse_snapshot l = none →
          load_snapshots (l :: rest) = load_snapshots rest) ∧
    (∀ l : List Char, parse_snapshot l = none ↔ searchM matchSnapshotAt l = none) ∧
    (∀ (l : List Char) (s : Snapshot), parse_snapshot l = some s →
        (searchM matchIntrAt l = none → s.intr_stat = 0 ∧ s.intr_en = 0) ∧
        (searchM matchCtrlAt l = none → s.pwr = 0 ∧ s.spd = 0) ∧
        (searchM (matchFlagAt haltPat) l = none → s.halt = false) ∧
        (searchM (matchFlagAt iffPat) l = none → s.iff1 = false)) := by
  refine ⟨?_, ?_, ?_, ?_⟩
  · intro l rest h
    simp [load_snapshots, h]
  · intro l rest h
    by_cases hm : listStartsWith markerChars l
    · simp [load_snapshots, hm, h]
    · simp [load_snapshots, hm]
  · intro l
    unfold parse_snapshot
    cases h : searchM matchSnapshotAt l <;> simp [h]
  · intro l s hs
    unfold parse_snapshot at hs
    cases h : searchM matchSnapshotAt l with
    | none =>
      rw [h] at hs
      exact absurd hs (by simp)
    | some g =>
      rw [h] at hs
      have hs2 := Option.some.inj hs
      subst hs2
      refine ⟨?_, ?_, ?_, ?_⟩ <;> intro hn <;> simp [hn]

/-- The C9 witness line: carries the marker but misses mandatory fields. -/
def c9BadLine : List Char := ("[snapshot] cycle=5 PC=0A").toList

/-- The C9 witness line: all mandatory fields present, no optional ones. -/
def c9GoodLine : List Char :=
  ("[snapshot] cycle=7 PC=1A SP=2B AF=3C BC=4D DE=5E HL=6F").toList

/-- Witness for C9 at concrete lines: the malformed marker line is dropped,
and the snapshot loaded from the minimal line has all optional fields at
their zero/false defaults. -/
theorem C9_loader_tolerance_witness :
    load_snapshots [c9BadLine] = [] ∧
    (∃ s : Snapshot, parse_snapshot c9GoodLine = some s ∧
        s.intr_stat = 0 ∧ s.intr_en = 0 ∧ s.pwr = 0 ∧ s.spd = 0 ∧
        s.halt = false ∧ s.iff1 = false) := by
  constructor
  · exact (C9_loader_tolerance.2.1 c9BadLine [] (by decide)).trans rfl
  · cases hp : parse_snapshot c9GoodLine with
    | none => exact absurd hp (by decide)
    | some s =>
      have h4 := C9_loader_tolerance.2.2.2 c9GoodLine s hp
      exact ⟨s, rfl, (h4.1 (by decide)).1, (h4.1 (by decide)).2,
        (h4.2.1 (by decide)).1, (h4.2.1 (by decide)).2,
        h4.2.2.1 (by decide), h4.2.2.2 (by decide)⟩

/-! ### Dense-scan characterization -/

/-- Whether the scan loop body records any divergence at step `i` when all
three firsts are still unset. -/
def stepDiverges (ours cemu : List Step) (ioCheck writes_only ignore_old : Bool)
    (i : Nat) : Bool :=
  (pcAt ours i != pcAt cemu i) ||
  (findRegDiff (stepGet ours i).regs_before (stepGet cemu i).regs_before regOrder).isSome ||
  (ioCheck && (compare_io_ops (stepGet ours i).io_ops (stepGet cemu i).io_ops
    writes_only ignore_old).isSome)

/-- The first step index showing any divergence, within the scan range. -/
def firstDivergingStep (ours cemu : List Step) (max_steps : Option Nat)
    (ioCheck writes_only ignore_old : Bool) : Option Nat :=
  (List.range (minLen ours cemu max_steps)).find?
    (stepDiverges ours cemu ioCheck writes_only ignore_old)

lemma scanAux_char (ours cemu : List Step) (ci wo io : Bool) :
    ∀ rem i : Nat,
      scanAux ours cemu ci wo io rem i none none none =
        match (List.range' i rem).find? (stepDiverges ours cemu ci wo io) with
        | none => ⟨none, none, none⟩
        | some j =>
          ⟨if pcAt ours j ≠ pcAt cemu j then some j else none,
           (findRegDiff (stepGet ours j).regs_before (stepGet cemu j).regs_before
             regOrder).map (fun q => (j, q)),
           if ci then
             (compare_io_ops (stepGet ours j).io_ops (stepGet cemu j).io_ops wo io).map
               (fun d => (j, d))
           else none⟩ := by
  intro rem
  induction rem with
  | zero => intro i; rfl
  | succ rem ih =>
    intro i
    rw [List.range'_succ]
    by_cases hd : stepDiverges ours cemu ci wo io i = true
    · rw [List.find?_cons_of_pos _ hd]
      unfold stepDiverges at hd
      rw [scanAux]
      rcases hr : findRegDiff (stepGet ours i).regs_before (stepGet cemu i).regs_before
          regOrder with _ | ⟨r, ov, cv⟩ <;>
        rcases hc : compare_io_ops (stepGet ours i).io_ops (stepGet cemu i).io_ops
          wo io with _ | d <;>
        by_cases hpc : pcAt ours i ≠ pcAt cemu i <;>
        cases ci <;>
        simp_all [bne_iff_ne]
    · rw [List.find?_cons_of_neg _ hd]
      unfold stepDiverges at hd
      rw [scanAux]
      rcases hr : findRegDiff (stepGet ours i).regs_before (stepGet cemu i).regs_before
          regOrder with _ | ⟨r, ov, cv⟩ <;>
        rcases hc : compare_io_ops (stepGet ours i).io_ops (stepGet cemu i).io_ops
          wo io with _ | d <;>
        by_cases hpc : pcAt ours i ≠ pcAt cemu i <;>
        cases ci <;>
        simp_all [bne_iff_ne]

lemma find?_range'_least (p : Nat → Bool) :
    ∀ (n i j : Nat), (List.range' i n).find? p = some j →
      p j = true ∧ i ≤ j ∧ j < i + n ∧ ∀ k, i ≤ k → k < j → p k = false := by
  intro n
  induction n with
  | zero => intro i j h; simp [List.range'] at h
  | succ n ih =>
    intro i j h
    rw [List.range'_succ] at h
    by_cases hp : p i = true
    · rw [List.find?_cons_of_pos _ hp] at h
      injection h with h
      subst h
      exact ⟨hp, le_refl _, by omega, fun k hk1 hk2 => absurd hk1 (by omega)⟩
    · rw [List.find?_cons_of_neg _ hp] at h
      rcases ih (i + 1) j h with ⟨h1, h2, h3, h4⟩
      refine ⟨h1, by omega, by omega, ?_⟩
      intro k hk1 hk2
      rcases Nat.eq_or_lt_of_le hk1 with he | hlt
      · rw [← he]
        simpa using hp
      · exact h4 k hlt hk2

lemma findRegDiff_self (r : List (String × String)) :
    ∀ l : List String, findRegDiff r r l = none := by
  intro l
  induction l with
  | nil => rfl
  | cons a rest ih => simp [findRegDiff, ih]

lemma compareOpsAux_self (io : Bool) :
    ∀ (l : List IOOp) (i : Nat), compareOpsAux io i l l = none := by
  intro l
  induction l with
  | nil => intro i; rfl
  | cons a as ih =>
    intro i
    cases a <;> simp [compareOpsAux, ih]

lemma compare_io_ops_refl (l : List IOOp) (wo io : Bool) :
    compare_io_ops l l wo io = none := by
  unfold compare_io_ops
  cases wo <;> simp [compareOpsAux_self]

lemma compare_io_ops_writes_filter_eq (a b : List IOOp) (io : Bool)
    (h : a.filter (fun op => opType op == "write") =
      b.filter (fun op => opType op == "write")) :
    compare_io_ops a b true io = none := by
  unfold compare_io_ops
  simp [h, compareOpsAux_self]

lemma compareOpsAux_none_eq :
    ∀ (l l' : List IOOp) (i : Nat), l.length = l'.length →
      compareOpsAux false i l l' = none → l = l' := by
  intro l
  induction l with
  | nil =>
    intro l' i hlen _
    cases l' with
    | nil => rfl
    | cons b bs => simp at hlen
  | cons a as ih =>
    intro l' i hlen h
    cases l' with
    | nil => simp at hlen
    | cons b bs =>
      have hlen2 : as.length = bs.length := by simpa using hlen
      cases a with
      | read t ad v =>
        cases b with
        | write t2 ad2 o2 n2 =>
          rw [compareOpsAux, if_pos (by simp [opType])] at h
          exact absurd h (by simp)
        | read t2 ad2 v2 =>
          rw [compareOpsAux] at h
          split_ifs at h with h1 h2 h3 h4
          have ht : t = t2 := not_ne_iff.mp (by simpa [opTarget] using h2)
          have had : ad = ad2 := not_ne_iff.mp (by simpa [opAddr] using h3)
          have hv : v = v2 := not_ne_iff.mp h4
          rw [ht, had, hv, ih bs (i + 1) hlen2 h]
      | write t ad o n =>
        cases b with
        | read t2 ad2 v2 =>
          rw [compareOpsAux, if_pos (by simp [opType])] at h
          exact absurd h (by simp)
        | write t2 ad2 o2 n2 =>
          rw [compareOpsAux] at h
          split_ifs at h with h1 h2 h3 h4 h5
          have ht : t = t2 := not_ne_iff.mp (by simpa [opTarget] using h2)
          have had : ad = ad2 := not_ne_iff.mp (by simpa [opAddr] using h3)
          have ho : o = o2 := by
            by_contra hno
            exact h4 (by simp [hno])
          have hn : n = n2 := not_ne_iff.mp h5
          rw [ht, had, ho, hn, ih bs (i + 1) hlen2 h]

lemma compare_io_ops_ne_full (l l' : List IOOp) (h : l ≠ l') :
    (compare_io_ops l l' false false).isSome = true := by
  unfold compare_io_ops
  simp only [Bool.false_eq_true, if_false]
  by_cases hlen : l.length ≠ l'.length
  · rw [if_pos hlen]; simp
  · push_neg at hlen
    rw [if_neg (by simp [hlen])]
    cases hc : compareOpsAux false 0 l l' with
    | none => exact absurd (compareOpsAux_none_eq l l' 0 hlen hc) h
    | some d => simp

/-- Two operations equal except possibly in a write's `old` field: the
hypothesis class of the ignore-old claim. -/
def eqExceptOld : IOOp → IOOp → Bool
  | .read t a v, .read t2 a2 v2 => t == t2 && a == a2 && v == v2
  | .write t a _ n, .write t2 a2 _ n2 => t == t2 && a == a2 && n == n2
  | _, _ => false

/-- Pointwise `eqExceptOld` over two operation lists of equal length. -/
def eqExceptOldL : List IOOp → List IOOp → Bool
  | [], [] => true
  | a :: as, b :: bs => eqExceptOld a b && eqExceptOldL as bs
  | _, _ => false

lemma eqExceptOldL_length :
    ∀ l l' : List IOOp, eqExceptOldL l l' = true → l.length = l'.length := by
  intro l
  induction l with
  | nil =>
    intro l' h
    cases l' with
    | nil => rfl
    | cons b bs => simp [eqExceptOldL] at h
  | cons a as ih =>
    intro l' h
    cases l' with
    | nil => simp [eqExceptOldL] at h
    | cons b bs =>
      simp only [eqExceptOldL, Bool.and_eq_true] at h
      simp [ih bs h.2]

lemma compareOpsAux_eqExceptOld_ignore :
    ∀ (l l' : List IOOp) (i : Nat), eqExceptOldL l l' = true →
      compareOpsAux true i l l' = none := by
  intro l
  induction l with
  | nil =>
    intro l' i h
    cases l' with
    | nil => rfl
    | cons b bs => simp [eqExceptOldL] at h
  | cons a as ih =>
    intro l' i h
    cases l' with
    | nil => simp [eqExceptOldL] at h
    | cons b bs =>
      simp only [eqExceptOldL, Bool.and_eq_true] at h
      obtain ⟨hab, htail⟩ := h
      cases a with
      | read t ad v =>
        cases b with
        | write t2 ad2 o2 n2 => simp [eqExceptOld] at hab
        | read t2 ad2 v2 =>
          obtain ⟨⟨ht, had⟩, hv⟩ :=
            (by simpa [eqExceptOld] using hab : (t = t2 ∧ ad = ad2) ∧ v = v2)
          subst ht; subst had; subst hv
          rw [compareOpsAux]
          simp [opType, opTarget, opAddr, ih bs (i + 1) htail]
      | write t ad o n =>
        cases b with
        | read t2 ad2 v2 => simp [eqExceptOld] at hab
        | write t2 ad2 o2 n2 =>
          obtain ⟨⟨ht, had⟩, hn⟩ :=
            (by simpa [eqExceptOld] using hab : (t = t2 ∧ ad = ad2) ∧ n = n2)
          subst ht; subst had; subst hn
          rw [compareOpsAux]
          simp [opType, opTarget, opAddr, ih bs (i + 1) htail]

lemma compareOpsAux_eqExceptOld_oldDiff :
    ∀ (l l' : List IOOp) (i : Nat), eqExceptOldL l l' = true → l ≠ l' →
      ∃ k o1 o2, compareOpsAux false i l l' = some (IODiff.oldD k o1 o2) ∧ o1 ≠ o2 := by
  intro l
  induction l with
  | nil =>
    intro l' i h hne
    cases l' with
    | nil => exact absurd rfl hne
    | cons b bs => simp [eqExceptOldL] at h
  | cons a as ih =>
    intro l' i h hne
    cases l' with
    | nil => simp [eqExceptOldL] at h
    | cons b bs =>
      simp only [eqExceptOldL, Bool.and_eq_true] at h
      obtain ⟨hab, htail⟩ := h
      cases a with
      | read t ad v =>
        cases b with
        | write t2 ad2 o2 n2 => simp [eqExceptOld] at hab
        | read t2 ad2 v2 =>
          obtain ⟨⟨ht, had⟩, hv⟩ :=
            (by simpa [eqExceptOld] using hab : (t = t2 ∧ ad = ad2) ∧ v = v2)
          subst ht; subst had; subst hv
          have hne2 : as ≠ bs := fun hc => hne (by rw [hc])
          rw [compareOpsAux]
          simpa [opType, opTarget, opAddr] using ih bs (i + 1) htail hne2
      | write t ad o n =>
        cases b with
        | read t2 ad2 v2 => simp [eqExceptOld] at hab
        | write t2 ad2 o2 n2 =>
          obtain ⟨⟨ht, had⟩, hn⟩ :=
            (by simpa [eqExceptOld] using hab : (t = t2 ∧ ad = ad2) ∧ n = n2)
          subst ht; subst had; subst hn
          by_cases ho : o = o2
          · subst ho
            have hne2 : as ≠ bs := fun hc => hne (by rw [hc])
            rw [compareOpsAux]
            simpa [opType, opTarget, opAddr] using ih bs (i + 1) htail hne2
          · refine ⟨i, o, o2, ?_, ho⟩
            rw [compareOpsAux]
            simp [opType, opTarget, opAddr, ho]

lemma compare_io_ops_eqExceptOld_ignore (l l' : List IOOp)
    (h : eqExceptOldL l l' = true) : compare_io_ops l l' false true = none := by
  unfold compare_io_ops
  simp only [Bool.false_eq_true, if_false]
  rw [if_neg (by simp [eqExceptOldL_length l l' h])]
  exact compareOpsAux_eqExceptOld_ignore l l' 0 h

lemma compare_io_ops_eqExceptOld_old (l l' : List IOOp)
    (h : eqExceptOldL l l' = true) (hne : l ≠ l') :
    ∃ k o1 o2, compare_io_ops l l' false false = some (IODiff.oldD k o1 o2) ∧
      o1 ≠ o2 := by
  unfold compare_io_ops
  simp only [Bool.false_eq_true, if_false]
  rw [if_neg (by simp [eqExceptOldL_length l l' h])]
  exact compareOpsAux_eqExceptOld_oldDiff l l' 0 h hne

lemma findRegDiff_eq_find? (ours cemu : List (String × String)) :
    ∀ l : List String,
      findRegDiff ours cemu l =
        (l.find? (fun r => regGet ours r != regGet cemu r)).map
          (fun r => (r, regGet ours r, regGet cemu r)) := by
  intro l
  induction l with
  | nil => rfl
  | cons r rest ih =>
    by_cases h : regGet ours r ≠ regGet cemu r
    · rw [findRegDiff, if_pos h,
        List.find?_cons_of_pos _ (by simpa [bne_iff_ne] using h)]
      rfl
    · rw [findRegDiff, if_neg h,
        List.find?_cons_of_neg _ (by simpa [bne_iff_ne] using h), ih]

lemma compare_traces_scan_eq (ours cemu : List Step) (ms : Option Nat)
    (ci wo io : Bool) :
    compare_traces_scan ours cemu ms ci wo io =
      match firstDivergingStep ours cemu ms ci wo io with
      | none => ⟨none, none, none⟩
      | some j =>
        ⟨if pcAt ours j ≠ pcAt cemu j then some j else none,
         (findRegDiff (stepGet ours j).regs_before (stepGet cemu j).regs_before
           regOrder).map (fun q => (j, q)),
         if ci then
           (compare_io_ops (stepGet ours j).io_ops (stepGet cemu j).io_ops wo io).map
             (fun d => (j, d))
         else none⟩ := by
  unfold compare_traces_scan firstDivergingStep
  rw [List.range_eq_range']
  exact scanAux_char ours cemu ci wo io (minLen ours cemu ms) 0

/-! ### Claims C1, C5, C6, C7 -/

/-- C1 counterexample trace: PC diverges at step 0, registers at step 2. -/
def c1A : List Step :=
  [⟨some "A0", [("BC", "0012")], []⟩, ⟨some "P1", [], []⟩,
   ⟨some "P2", [("BC", "0012")], []⟩]

/-- The counterpart of `c1A`. -/
def c1B : List Step :=
  [⟨some "B0", [("BC", "0012")], []⟩, ⟨some "P1", [], []⟩,
   ⟨some "P2", [("BC", "9999")], []⟩]

/-- Claim C1 counterexample: on `c1A` versus `c1B` a register mismatch
exists at step 2, inside the scan range of 3 steps with no scan limit, yet
the scan stops at step 0 having located only the PC kind — so scanning does
not continue until all three kinds are located — and the reported first
divergence overall is `none` rather than the minimum step index 0 of the
kinds found. -/
theorem C1_counterexample :
    compare_traces_scan c1A c1B none true false false = ⟨some 0, none, none⟩ ∧
    divergence_step (compare_traces_scan c1A c1B none true false false) = none ∧
    minLen c1A c1B none = 3 ∧
    (findRegDiff (stepGet c1A 2).regs_before (stepGet c1B 2).regs_before
      regOrder).isSome = true := by
  decide

/-- Claim C1 (amended): the locator checks the three kinds concurrently
within each step but stops scanning at the first step where any kind
diverges; every kind located is located at that very step; the reported
first divergence overall is that step when a register or I/O kind was
located there, and otherwise (PC kind only) it is that step unless the step
index is 0, in which case no overall divergence is reported. -/
theorem C1_amended_locator (ours cemu : List Step) (ms : Option Nat)
    (ci wo io : Bool) :
    (∀ j : Nat, firstDivergingStep ours cemu ms ci wo io = some j →
        (stepDiverges ours cemu ci wo io j = true ∧ j < minLen ours cemu ms ∧
          ∀ k, k < j → stepDiverges ours cemu ci wo io k = false) ∧
        compare_traces_scan ours cemu ms ci wo io =
          ⟨if pcAt ours j ≠ pcAt cemu j then some j else none,
           (findRegDiff (stepGet ours j).regs_before (stepGet cemu j).regs_before
             regOrder).map (fun q => (j, q)),
           if ci then
             (compare_io_ops (stepGet ours j).io_ops (stepGet cemu j).io_ops wo io).map
               (fun d => (j, d))
           else none⟩ ∧
        divergence_step (compare_traces_scan ours cemu ms ci wo io) =
          (if ((findRegDiff (stepGet ours j).regs_before (stepGet cemu j).regs_before
                regOrder).isSome ||
              (ci && (compare_io_ops (stepGet ours j).io_ops (stepGet cemu j).io_ops
                wo io).isSome)) = true
           then some j
           else if j ≠ 0 then some j else none)) ∧
    (firstDivergingStep ours cemu ms ci wo io = none →
        compare_traces_scan ours cemu ms ci wo io = ⟨none, none, none⟩ ∧
        divergence_step (compare_traces_scan ours cemu ms ci wo io) = none) := by
  constructor
  · intro j hj
    have hchar := compare_traces_scan_eq ours cemu ms ci wo io
    rw [hj] at hchar
    have hj' := hj
    unfold firstDivergingStep at hj'
    rw [List.range_eq_range'] at hj'
    have hleast := find?_range'_least (stepDiverges ours cemu ci wo io)
      (minLen ours cemu ms) 0 j hj'
    have hsd := hleast.1
    refine ⟨⟨hsd, by omega, fun k hk => hleast.2.2.2 k (Nat.zero_le k) hk⟩, hchar, ?_⟩
    rw [hchar]
    rcases hr : findRegDiff (stepGet ours j).regs_before (stepGet cemu j).regs_before
        regOrder with _ | q <;>
      rcases hc : compare_io_ops (stepGet ours j).io_ops (stepGet cemu j).io_ops
        wo io with _ | d <;>
      by_cases hpc : pcAt ours j ≠ pcAt cemu j <;>
      cases ci <;>
      by_cases hj0 : j = 0 <;>
      simp_all [divergence_step, stepDiverges, bne_iff_ne]
  · intro hnone
    have hchar := compare_traces_scan_eq ours cemu ms ci wo io
    rw [hnone] at hchar
    exact ⟨hchar, by rw [hchar]; rfl⟩

/-- Witness for the amended C1 at the concrete pair `c1A`, `c1B`: the first
diverging step is 0, the scan stops there with only the PC kind located, and
the reported first divergence overall is `none` because the index is 0. -/
theorem C1_amended_locator_witness :
    firstDivergingStep c1A c1B none true false false = some 0 ∧
    compare_traces_scan c1A c1B none true false false = ⟨some 0, none, none⟩ ∧
    divergence_step (compare_traces_scan c1A c1B none true false false) = none := by
  have h := (C1_amended_locator c1A c1B none true false false).1 0 (by decide)
  exact ⟨by decide, h.2.1.trans (by decide), h.2.2.trans (by decide)⟩

/-- The shared register file of the C5 example (8 registers, source order). -/
def c5Regs (bc de : String) : List (String × String) :=
  [("A", "01"), ("F", "02"), ("BC", bc), ("DE", de), ("HL", "05"),
   ("IX", "06"), ("IY", "07"), ("SP", "08")]

/-- C5 example trace A: steps 0-4 match, step 5 has BC = `"0012"`. -/
def c5A : List Step :=
  [⟨some "P0", c5Regs "0012" "0A", []⟩, ⟨some "P1", c5Regs "0012" "0A", []⟩,
   ⟨some "P2", c5Regs "0012" "0A", []⟩, ⟨some "P3", c5Regs "0012" "0A", []⟩,
   ⟨some "P4", c5Regs "0012" "0A", []⟩, ⟨some "P5", c5Regs "0012" "0A", []⟩]

/-- C5 example trace B: step 5 has BC = `"0013"` (and DE also differs, to
exhibit the first-match short-circuit). -/
def c5B : List Step :=
  [⟨some "P0", c5Regs "0012" "0A", []⟩, ⟨some "P1", c5Regs "0012" "0A", []⟩,
   ⟨some "P2", c5Regs "0012" "0A", []⟩, ⟨some "P3", c5Regs "0012" "0A", []⟩,
   ⟨some "P4", c5Regs "0012" "0A", []⟩, ⟨some "P5", c5Regs "0013" "1B", []⟩]

/-- Claim C5: dense register comparison checks A, F, BC, DE, HL, IX, IY, SP
in that order and stops at the first differing register within a step,
recording `(register, reference value, candidate value)`; on the concrete
pair whose steps 0-4 match and whose step 5 differs in BC (`"0012"` versus
`"0013"`, with DE also differing), the first register divergence is reported
at step 5 with register BC. -/
theorem C5_register_order :
    (∀ (ours cemu : List (String × String)) (l : List String),
        findRegDiff ours cemu l =
          (l.find? (fun r => regGet ours r != regGet cemu r)).map
            (fun r => (r, regGet ours r, regGet cemu r))) ∧
    regOrder = ["A", "F", "BC", "DE", "HL", "IX", "IY", "SP"] ∧
    (compare_traces_scan c5A c5B none true false false).regDiff =
      some (5, "BC", "0012", "0013") ∧
    divergence_step (compare_traces_scan c5A c5B none true false false) =
      some 5 := by
  refine ⟨fun o c => findRegDiff_eq_find? o c, rfl, ?_, ?_⟩ <;> decide

/-- Claim C6: for every dense trace pair whose aligned steps agree on PC and
registers and whose I/O operation lists differ only in reads (the writes
sublists are equal, yet some step's full operation lists differ),
writes-only comparison reports no divergence at all, while fully enabled
I/O comparison (writes-only and ignore-old off) reports an I/O divergence
and no PC or register divergence. -/
theorem C6_writes_only_mode (ours cemu : List Step) (io : Bool)
    (hpc : ∀ i, i < minLen ours cemu none → pcAt ours i = pcAt cemu i)
    (hreg : ∀ i, i < minLen ours cemu none →
      (stepGet ours i).regs_before = (stepGet cemu i).regs_before)
    (hw : ∀ i, i < minLen ours cemu none →
      (stepGet ours i).io_ops.filter (fun op => opType op == "write") =
        (stepGet cemu i).io_ops.filter (fun op => opType op == "write"))
    (hne : ∃ i, i < minLen ours cemu none ∧
      (stepGet ours i).io_ops ≠ (stepGet cemu i).io_ops) :
    (compare_traces_scan ours cemu none true true io = ⟨none, none, none⟩ ∧
      divergence_step (compare_traces_scan ours cemu none true true io) = none) ∧
    ((compare_traces_scan ours cemu none true false false).pcDiff = none ∧
      (compare_traces_scan ours cemu none true false false).regDiff = none ∧
      (compare_traces_scan ours cemu none true false false).ioDiff.isSome = true) := by
  constructor
  · have hnone : firstDivergingStep ours cemu none true true io = none := by
      unfold firstDivergingStep
      rw [List.find?_eq_none]
      intro x hx
      have hxlt : x < minLen ours cemu none := List.mem_range.mp hx
      unfold stepDiverges
      simp [hpc x hxlt, hreg x hxlt, findRegDiff_self,
        compare_io_ops_writes_filter_eq _ _ io (hw x hxlt)]
    have hchar := compare_traces_scan_eq ours cemu none true true io
    rw [hnone] at hchar
    exact ⟨hchar, by rw [hchar]; rfl⟩
  · have hex : ∃ x ∈ List.range (minLen ours cemu none),
        stepDiverges ours cemu true false false x = true := by
      obtain ⟨i, hilt, hine⟩ := hne
      refine ⟨i, List.mem_range.mpr hilt, ?_⟩
      unfold stepDiverges
      simp [compare_io_ops_ne_full _ _ hine]
    obtain ⟨j, hj⟩ := Option.isSome_iff_exists.mp (List.find?_isSome.mpr hex)
    have hjf : firstDivergingStep ours cemu none true false false = some j := hj
    have hj' := hjf
    unfold firstDivergingStep at hj'
    rw [List.range_eq_range'] at hj'
    have hleast := find?_range'_least (stepDiverges ours cemu true false false)
      (minLen ours cemu none) 0 j hj'
    have hjlt : j < minLen ours cemu none := by
      have := hleast.2.2.1
      omega
    have hchar := compare_traces_scan_eq ours cemu none true false false
    rw [hjf] at hchar
    rw [hchar]
    have hsd := hleast.1
    unfold stepDiverges at hsd
    rw [hpc j hjlt, hreg j hjlt] at hsd
    simp only [bne_self_eq_false, findRegDiff_self, Option.isSome_none,
      Bool.false_or, Bool.true_and] at hsd
    refine ⟨by simp [hpc j hjlt], by simp [hreg j hjlt, findRegDiff_self], ?_⟩
    simp only
    cases hc : compare_io_ops (stepGet ours j).io_ops (stepGet cemu j).io_ops
        false false with
    | none => rw [hc] at hsd; simp at hsd
    | some d => simp [hc]

/-- C6 witness trace: one step whose only I/O operation is a read. -/
def c6A : List Step := [⟨some "00", [], [IOOp.read "mem" "10" "AA"]⟩]

/-- C6 witness counterpart: the same step with no I/O operations. -/
def c6B : List Step := [⟨some "00", [], []⟩]

/-- Witness for C6: `c6A` and `c6B` differ only in a read operation;
writes-only comparison reports nothing, fully enabled comparison reports an
I/O divergence. -/
theorem C6_writes_only_mode_witness :
    (compare_traces_scan c6A c6B none true true false = ⟨none, none, none⟩ ∧
      divergence_step (compare_traces_scan c6A c6B none true true false) = none) ∧
    ((compare_traces_scan c6A c6B none true false false).pcDiff = none ∧
      (compare_traces_scan c6A c6B none true false false).regDiff = none ∧
      (compare_traces_scan c6A c6B none true false false).ioDiff.isSome = true) :=
  C6_writes_only_mode c6A c6B false (by decide) (by decide) (by decide)
    ⟨0, by decide, by decide⟩

/-- Claim C7: for every dense trace pair whose aligned steps agree on PC and
registers and whose I/O operations differ only in the `old` field of writes
(some step's lists differ), comparison with ignore-old enabled reports no
divergence, comparison with ignore-old disabled reports an I/O divergence on
an `old` field, and the `new` field of a write is compared under both
configurations. -/
theorem C7_ignore_old_mode (ours cemu : List Step)
    (hpc : ∀ i, i < minLen ours cemu none → pcAt ours i = pcAt cemu i)
    (hreg : ∀ i, i < minLen ours cemu none →
      (stepGet ours i).regs_before = (stepGet cemu i).regs_before)
    (hx : ∀ i, i < minLen ours cemu none →
      eqExceptOldL (stepGet ours i).io_ops (stepGet cemu i).io_ops = true)
    (hne : ∃ i, i < minLen ours cemu none ∧
      (stepGet ours i).io_ops ≠ (stepGet cemu i).io_ops) :
    (compare_traces_scan ours cemu none true false true = ⟨none, none, none⟩ ∧
      divergence_step (compare_traces_scan ours cemu none true false true) = none) ∧
    (∃ j k o1 o2,
      (compare_traces_scan ours cemu none true false false).ioDiff =
        some (j, IODiff.oldD k o1 o2) ∧ o1 ≠ o2 ∧
      (compare_traces_scan ours cemu none true false false).pcDiff = none ∧
      (compare_traces_scan ours cemu none true false false).regDiff = none) ∧
    (∀ (iog : Bool) (t ad o n1 n2 : String), n1 ≠ n2 →
      compare_io_ops [IOOp.write t ad o n1] [IOOp.write t ad o n2] false iog =
        some (IODiff.newD 0 n1 n2)) := by
  refine ⟨?_, ?_, ?_⟩
  · have hnone : firstDivergingStep ours cemu none true false true = none := by
      unfold firstDivergingStep
      rw [List.find?_eq_none]
      intro x hx2
      have hxlt : x < minLen ours cemu none := List.mem_range.mp hx2
      unfold stepDiverges
      simp [hpc x hxlt, hreg x hxlt, findRegDiff_self,
        compare_io_ops_eqExceptOld_ignore _ _ (hx x hxlt)]
    have hchar := compare_traces_scan_eq ours cemu none true false true
    rw [hnone] at hchar
    exact ⟨hchar, by rw [hchar]; rfl⟩
  · have hex : ∃ x ∈ List.range (minLen ours cemu none),
        stepDiverges ours cemu true false false x = true := by
      obtain ⟨i, hilt, hine⟩ := hne
      refine ⟨i, List.mem_range.mpr hilt, ?_⟩
      unfold stepDiverges
      simp [compare_io_ops_ne_full _ _ hine]
    obtain ⟨j, hj⟩ := Option.isSome_iff_exists.mp (List.find?_isSome.mpr hex)
    have hjf : firstDivergingStep ours cemu none true false false = some j := hj
    have hj' := hjf
    unfold firstDivergingStep at hj'
    rw [List.range_eq_range'] at hj'
    have hleast := find?_range'_least (stepDiverges ours cemu true false false)
      (minLen ours cemu none) 0 j hj'
    have hjlt : j < minLen ours cemu none := by
      have := hleast.2.2.1
      omega
    have hchar := compare_traces_scan_eq ours cemu none true false false
    rw [hjf] at hchar
    have hsd := hleast.1
    unfold stepDiverges at hsd
    rw [hpc j hjlt, hreg j hjlt] at hsd
    simp only [bne_self_eq_false, findRegDiff_self, Option.isSome_none,
      Bool.false_or, Bool.true_and] at hsd
    have hopsne : (stepGet ours j).io_ops ≠ (stepGet cemu j).io_ops := by
      intro hceq
      rw [hceq, compare_io_ops_refl] at hsd
      simp at hsd
    obtain ⟨k, o1, o2, hck, ho12⟩ :=
      compare_io_ops_eqExceptOld_old _ _ (hx j hjlt) hopsne
    refine ⟨j, k, o1, o2, ?_, ho12, ?_, ?_⟩
    · rw [hchar]
      simp [hck]
    · rw [hchar]
      simp [hpc j hjlt]
    · rw [hchar]
      simp [hreg j hjlt, findRegDiff_self]
  · intro iog t ad o n1 n2 hn
    cases iog <;> simp [compare_io_ops, compareOpsAux, opType, opTarget, opAddr, hn]

/-- C7 witness trace: one step with a single write whose `old` is `"AA"`. -/
def c7A : List Step := [⟨some "00", [], [IOOp.write "mem" "10" "AA" "BB"]⟩]

/-- C7 witness counterpart: the same write with `old` `"FF"`. -/
def c7B : List Step := [⟨some "00", [], [IOOp.write "mem" "10" "FF" "BB"]⟩]

/-- Witness for C7: `c7A` and `c7B` differ only in a write's `old` field;
ignore-old comparison reports nothing, strict comparison reports an `old`
divergence, and differing `new` fields are reported in both configurations. -/
theorem C7_ignore_old_mode_witness :
    (compare_traces_scan c7A c7B none true false true = ⟨none, none, none⟩ ∧
      divergence_step (compare_traces_scan c7A c7B none true false true) = none) ∧
    (∃ j k o1 o2,
      (compare_traces_scan c7A c7B none true false false).ioDiff =
        some (j, IODiff.oldD k o1 o2) ∧ o1 ≠ o2 ∧
      (compare_traces_scan c7A c7B none true false false).pcDiff = none ∧
      (compare_traces_scan c7A c7B none true false false).regDiff = none) ∧
    (∀ (iog : Bool) (t ad o n1 n2 : String), n1 ≠ n2 →
      compare_io_ops [IOOp.write t ad o n1] [IOOp.write t ad o n2] false iog =
        some (IODiff.newD 0 n1 n2)) :=
  C7_ignore_old_mode c7A c7B (by decide) (by decide) (by decide)
    ⟨0, by decide, by decide⟩

end TraceCompare
